import Mathlib

/-!
Verification of the TodayAtSG repository against its natural-language
specification.

The repository is a Vue/Pinia frontend (present under `src/frontend`) backed
by a FastAPI service whose ingestion-pipeline code (scrapers, normalizer,
deduplicator, geolocation resolver, persistence writer) is described by the
spec and by the repository documents `part_009` / `part_010` but is not
itself present in the source tree.  The pipeline components are therefore
modelled from the spec, faithfully to its words; the frontend store getters
and actions are embedded directly from `src/frontend/src/stores/auth.ts`
(which concatenates the auth, events and map Pinia stores).

Numbers: latitudes/longitudes are modelled as integers in ten-thousandths
of a degree, ratings as rationals `ℚ`, timestamps as integers `ℤ`,
identifiers as `ℕ`.
-/

namespace TodayAtSG

/-! ### Common string normalization

The spec speaks of "normalized titles" and a "normalized string metric"
(spec §4.4).  We normalize a string by keeping only alphanumeric characters,
lower-cased. -/

/-- Lower-cased alphanumeric-only canonical form of a string, used for
title and venue comparison in the deduplicator. -/
def normalizeTitle (s : String) : String :=
  String.mk (s.toList.filterMap (fun c => if c.isAlphanum then some c.toLower else none))

/-! ### C1: the Deduplicator (spec §4.4), modelled from the spec -/

/-- Modelled from the spec: a normalized candidate record as seen by the
Deduplicator (the backend pipeline code is not in the source tree).  Spec
§4.4: "normalized candidate plus the existing-events window (same date ±
venue) in". -/
structure Candidate where
  title : String
  date : String
  venue : String
  deriving Repr, DecidableEq

/-- Modelled from the spec: an existing persisted event record, as compared
against by the Deduplicator. -/
structure ExistingEvent where
  id : Nat
  title : String
  date : String
  venue : String
  deriving Repr, DecidableEq

/-- Modelled from the spec: the Deduplicator's verdict, "returns either
'new' or 'duplicate-of(existing_id)'" (spec §4.4). -/
inductive DedupResult where
  | fresh : DedupResult
  | duplicateOf (existingId : Nat) : DedupResult
  deriving Repr, DecidableEq

/-- Count of common characters (with multiplicity) between two character
lists; used by the fuzzy title-similarity metric. -/
def interCount : List Char → List Char → Nat
  | [], _ => 0
  | c :: cs, ys => if c ∈ ys then 1 + interCount cs (ys.erase c) else interCount cs ys

/-- Modelled from the spec: a "normalized string metric" of title
similarity in `[0, 1]` (spec §4.4 leaves the exact metric open; we use a
Sørensen–Dice character-overlap score on the normalized titles). -/
def titleSim (s t : String) : ℚ :=
  let a := (normalizeTitle s).toList
  let b := (normalizeTitle t).toList
  if a.length + b.length = 0 then 1
  else (2 * interCount a b : ℚ) / (a.length + b.length)

/-- Modelled from the spec: the similarity policy of spec §4.4 — "exact
title match is an immediate duplicate; otherwise a fuzzy title-similarity
threshold (≥ 0.8, the 80% threshold of `part_009`) combined with same date
and same/near venue is treated as duplicate". -/
def isDuplicatePair (cand : Candidate) (e : ExistingEvent) : Bool :=
  (normalizeTitle cand.title = normalizeTitle e.title)
    || (decide ((8 : ℚ)/10 ≤ titleSim cand.title e.title)
        && (cand.date = e.date)
        && (normalizeTitle cand.venue = normalizeTitle e.venue))

/-- Modelled from the spec: the Deduplicator scans the existing-events
window and returns `duplicateOf` the first event the similarity policy
flags, else `fresh` ("new").  Ties favor treating as duplicate (spec §4.4). -/
def deduplicate (cand : Candidate) : List ExistingEvent → DedupResult
  | [] => DedupResult.fresh
  | e :: rest =>
      if isDuplicatePair cand e then DedupResult.duplicateOf e.id
      else deduplicate cand rest

/-- An exact normalized-title match makes `isDuplicatePair` fire,
whatever the dates and venues are. -/
theorem isDuplicatePair_of_title_eq (cand : Candidate) (e : ExistingEvent)
    (h : normalizeTitle cand.title = normalizeTitle e.title) :
    isDuplicatePair cand e = true := by
  unfold isDuplicatePair
  rw [decide_eq_true h]
  rfl

/-- C1: for every pair of a normalized candidate and an existing event with
identical normalized titles and identical dates, the Deduplicator returns
"duplicate-of" some existing id, never "new". -/
theorem deduplicate_duplicate_on_exact_match
    (cand : Candidate) (window : List ExistingEvent) (e : ExistingEvent)
    (hmem : e ∈ window)
    (htitle : normalizeTitle cand.title = normalizeTitle e.title)
    (hdate : cand.date = e.date) :
    ∃ existingId, deduplicate cand window = DedupResult.duplicateOf existingId := by
  induction window with
  | nil => cases hmem
  | cons a rest ih =>
      by_cases ha : isDuplicatePair cand a = true
      · refine ⟨a.id, ?_⟩
        simp [deduplicate, ha]
      · have hne : e ≠ a := by
          intro hea
          exact ha (isDuplicatePair_of_title_eq cand a (hea ▸ htitle))
        have hmem' : e ∈ rest := by
          rcases List.mem_cons.mp hmem with h | h
          · exact absurd h hne
          · exact h
        rcases ih hmem' with ⟨i, hi⟩
        refine ⟨i, ?_⟩
        simp [deduplicate, ha, hi]

/-- C1 witness: the spec's own scenario — candidate "Jazz Night" dated
2024-08-01 at "Marina Bay" against an existing event with the same title,
date and venue is reported as a duplicate of that event's id. -/
theorem deduplicate_duplicate_witness :
    ∃ existingId,
      deduplicate
        { title := "Jazz Night", date := "2024-08-01", venue := "Marina Bay" }
        [{ id := 42, title := "Jazz Night", date := "2024-08-01", venue := "Marina Bay" }]
        = DedupResult.duplicateOf existingId :=
  deduplicate_duplicate_on_exact_match
    { title := "Jazz Night", date := "2024-08-01", venue := "Marina Bay" }
    [{ id := 42, title := "Jazz Night", date := "2024-08-01", venue := "Marina Bay" }]
    { id := 42, title := "Jazz Night", date := "2024-08-01", venue := "Marina Bay" }
    (List.mem_singleton.mpr rfl) rfl rfl

/-! ### C2: the Persistence Writer (spec §4.6), modelled from the spec -/

/-- Modelled from the spec: a validated event record handed to the
Persistence Writer, carrying its upsert key "(source, external-id-or-dedup-key)"
(spec §4.6) together with the event fields. -/
structure PersistRecord where
  source : String
  dedupKey : String
  title : String
  date : String
  deriving Repr, DecidableEq

/-- The upsert key of a record: "(source, external-id-or-dedup-key)"
(spec §4.6, glossary "Dedup key"). -/
def rowKey (r : PersistRecord) : String × String :=
  (r.source, r.dedupKey)

/-- Whether the event store already holds a row with the given key. -/
def hasKey (store : List PersistRecord) (k : String × String) : Bool :=
  store.any (fun q => decide (rowKey q = k))

/-- Modelled from the spec: the Persistence Writer "upserts by (source,
external-id-or-dedup-key)" (spec §4.6): when a row with the record's key
exists it is updated in place, otherwise the record is inserted as a new
row. -/
def upsert (store : List PersistRecord) (r : PersistRecord) : List PersistRecord :=
  if hasKey store (rowKey r) then
    store.map (fun q => if rowKey q = rowKey r then r else q)
  else store ++ [r]

/-- Modelled from the spec: one source's ingestion run at the persistence
layer — the batch of validated records is upserted in order. -/
def runIngest (store : List PersistRecord) (batch : List PersistRecord) :
    List PersistRecord :=
  batch.foldl upsert store

theorem length_upsert_of_hasKey (store : List PersistRecord) (r : PersistRecord)
    (h : hasKey store (rowKey r) = true) :
    (upsert store r).length = store.length := by
  simp [upsert, h]

theorem hasKey_upsert_self (store : List PersistRecord) (r : PersistRecord) :
    hasKey (upsert store r) (rowKey r) = true := by
  unfold upsert
  by_cases h : hasKey store (rowKey r) = true
  · rw [if_pos h]
    rcases List.any_eq_true.mp h with ⟨q, hq, hqk⟩
    have hqk' : rowKey q = rowKey r := of_decide_eq_true hqk
    refine List.any_eq_true.mpr ⟨r, ?_, by simp⟩
    exact List.mem_map.mpr ⟨q, hq, by simp [hqk']⟩
  · rw [if_neg h]
    refine List.any_eq_true.mpr ⟨r, ?_, by simp⟩
    exact List.mem_append.mpr (Or.inr (List.mem_singleton.mpr rfl))

theorem hasKey_upsert_mono (store : List PersistRecord) (r : PersistRecord)
    (k : String × String) (h : hasKey store k = true) :
    hasKey (upsert store r) k = true := by
  unfold upsert
  rcases List.any_eq_true.mp h with ⟨q, hq, hqk⟩
  have hqk' : rowKey q = k := of_decide_eq_true hqk
  by_cases hk : hasKey store (rowKey r) = true
  · rw [if_pos hk]
    by_cases hqr : rowKey q = rowKey r
    · refine List.any_eq_true.mpr ⟨r, List.mem_map.mpr ⟨q, hq, by simp [hqr]⟩, ?_⟩
      simp [← hqr, hqk']
    · refine List.any_eq_true.mpr ⟨q, List.mem_map.mpr ⟨q, hq, by simp [hqr]⟩, ?_⟩
      simp [hqk']
  · rw [if_neg hk]
    exact List.any_eq_true.mpr ⟨q, List.mem_append.mpr (Or.inl hq), hqk⟩

theorem runIngest_hasKey_mono (batch : List PersistRecord)
    (store : List PersistRecord) (k : String × String)
    (h : hasKey store k = true) :
    hasKey (runIngest store batch) k = true := by
  induction batch generalizing store with
  | nil => exact h
  | cons b rest ih => exact ih (upsert store b) (hasKey_upsert_mono store b k h)

theorem runIngest_hasKey_of_mem (batch : List PersistRecord)
    (store : List PersistRecord) (r : PersistRecord) (hmem : r ∈ batch) :
    hasKey (runIngest store batch) (rowKey r) = true := by
  induction batch generalizing store with
  | nil => cases hmem
  | cons b rest ih =>
      rcases List.mem_cons.mp hmem with h | h
      · subst h
        exact runIngest_hasKey_mono rest (upsert store r) (rowKey r)
          (hasKey_upsert_self store r)
      · exact ih (upsert store b) h

theorem length_runIngest_of_allKeys (batch : List PersistRecord)
    (store : List PersistRecord)
    (h : ∀ r ∈ batch, hasKey store (rowKey r) = true) :
    (runIngest store batch).length = store.length := by
  induction batch generalizing store with
  | nil => rfl
  | cons b rest ih =>
      have hb : hasKey store (rowKey b) = true := h b (List.mem_cons_self b rest)
      have step : (runIngest (upsert store b) rest).length = (upsert store b).length :=
        ih (upsert store b)
          (fun r hr => hasKey_upsert_mono store b (rowKey r) (h r (List.mem_cons_of_mem b hr)))
      calc (runIngest store (b :: rest)).length
          = (runIngest (upsert store b) rest).length := rfl
        _ = (upsert store b).length := step
        _ = store.length := length_upsert_of_hasKey store b hb

/-- C2: at the persistence layer a record whose (source, dedup-key) already
exists is an update, not an insert (row count unchanged), and re-running a
source's ingestion with the same batch changes the event-store row count by
nothing: the second run is a no-op in rows. -/
theorem runIngest_idempotent_rowcount
    (store batch : List PersistRecord) (r : PersistRecord) :
    (hasKey store (rowKey r) = true → (upsert store r).length = store.length)
      ∧ (runIngest (runIngest store batch) batch).length
          = (runIngest store batch).length := by
  refine ⟨length_upsert_of_hasKey store r, ?_⟩
  exact length_runIngest_of_allKeys batch (runIngest store batch)
    (fun q hq => runIngest_hasKey_of_mem batch store q hq)

/-- C2 witness: persisting a record whose key is already present in a
concrete one-row store keeps the row count at 1, and a concrete two-record
batch ingested twice ends with the row count of a single ingestion. -/
theorem runIngest_idempotent_rowcount_witness :
    (upsert
      [{ source := "eventbrite", dedupKey := "jazz-2024-08-01",
         title := "Jazz Night", date := "2024-08-01" }]
      { source := "eventbrite", dedupKey := "jazz-2024-08-01",
        title := "Jazz Night (updated)", date := "2024-08-01" }).length
      = 1
    ∧ (runIngest
        (runIngest []
          [{ source := "eventbrite", dedupKey := "a", title := "A", date := "d1" },
           { source := "eventbrite", dedupKey := "b", title := "B", date := "d2" }])
        [{ source := "eventbrite", dedupKey := "a", title := "A", date := "d1" },
         { source := "eventbrite", dedupKey := "b", title := "B", date := "d2" }]).length
      = (runIngest []
          [{ source := "eventbrite", dedupKey := "a", title := "A", date := "d1" },
           { source := "eventbrite", dedupKey := "b", title := "B", date := "d2" }]).length :=
  ⟨(runIngest_idempotent_rowcount
      [{ source := "eventbrite", dedupKey := "jazz-2024-08-01",
         title := "Jazz Night", date := "2024-08-01" }] []
      { source := "eventbrite", dedupKey := "jazz-2024-08-01",
        title := "Jazz Night (updated)", date := "2024-08-01" }).1 (by decide),
   (runIngest_idempotent_rowcount []
      [{ source := "eventbrite", dedupKey := "a", title := "A", date := "d1" },
       { source := "eventbrite", dedupKey := "b", title := "B", date := "d2" }]
      { source := "eventbrite", dedupKey := "a", title := "A", date := "d1" }).2⟩

/-! ### C3: the Geolocation Resolver (spec §4.5), modelled from the spec -/

/-- Modelled from the spec: the Geolocation Resolver's input, "location
text plus optional raw coordinates" (spec §4.5).  Coordinates are decimal
degrees with four decimal places, embedded as integers in ten-thousandths
of a degree (so 1.3521° is `13521`). -/
structure GeoInput where
  locationText : String
  rawCoords : Option (ℤ × ℤ)
  deriving Repr, DecidableEq

/-- Modelled from the spec: `GeocodeError`, raised when "no resolvable
address and no usable raw coordinates are given" (spec §4.5, §7). -/
inductive GeocodeError where
  | unresolvable : GeocodeError
  deriving Repr, DecidableEq

/-- The Singapore bounding box of the spec: `(1.0, 103.5) ≤ (lat, lng) ≤
(1.5, 104.1)` (spec §8), in ten-thousandths of a degree. -/
def inSGBounds (lat lng : ℤ) : Bool :=
  decide ((10000 : ℤ) ≤ lat) && decide (lat ≤ (15000 : ℤ))
    && decide ((1035000 : ℤ) ≤ lng) && decide (lng ≤ (1041000 : ℤ))

/-- Modelled from the spec: the "small table of known Singapore landmarks"
(spec §4.5); names and coordinates follow the popular-locations database of
`part_010` (Marina Bay 1.2806/103.8598, Orchard 1.3048/103.8318, ...), in
ten-thousandths of a degree. -/
def landmarks : List (String × ℤ × ℤ) :=
  [("Marina Bay", (12806 : ℤ), (1038598 : ℤ)),
   ("Orchard", (13048 : ℤ), (1038318 : ℤ)),
   ("Clarke Quay", (12884 : ℤ), (1038465 : ℤ)),
   ("Sentosa", (12494 : ℤ), (1038303 : ℤ))]

/-- Landmark lookup by normalized name match (spec §4.5: "look up a small
table of known Singapore landmarks by name match"). -/
def lookupLandmark (text : String) : Option (ℤ × ℤ) :=
  (landmarks.find? (fun l => decide (normalizeTitle l.1 = normalizeTitle text))).map
    (fun l => l.2)

/-- Resolution through the landmark table, failing with `GeocodeError` when
the location text matches no landmark. -/
def resolveFromLandmarks (text : String) : Except GeocodeError (ℤ × ℤ) :=
  match lookupLandmark text with
  | some c => Except.ok c
  | none => Except.error GeocodeError.unresolvable

/-- Modelled from the spec: the Geolocation Resolver.  Resolution order of
spec §4.5: "use provided coordinates if within bounds; else look up a small
table of known Singapore landmarks by name match; else fail". -/
def resolveGeo (input : GeoInput) : Except GeocodeError (ℤ × ℤ) :=
  match input.rawCoords with
  | some c =>
      if inSGBounds c.1 c.2 then Except.ok c
      else resolveFromLandmarks input.locationText
  | none => resolveFromLandmarks input.locationText

theorem landmarks_in_bounds :
    ∀ l ∈ landmarks, inSGBounds l.2.1 l.2.2 = true := by decide

theorem resolveFromLandmarks_in_bounds (text : String) (c : ℤ × ℤ)
    (h : resolveFromLandmarks text = Except.ok c) :
    inSGBounds c.1 c.2 = true := by
  unfold resolveFromLandmarks at h
  cases hl : lookupLandmark text with
  | none => rw [hl] at h; cases h
  | some c0 =>
      rw [hl] at h
      cases h
      unfold lookupLandmark at hl
      cases hf : landmarks.find?
          (fun l => decide (normalizeTitle l.1 = normalizeTitle text)) with
      | none => rw [hf] at hl; cases hl
      | some l =>
          rw [hf] at hl
          cases hl
          exact landmarks_in_bounds l (List.mem_of_find?_eq_some hf)

/-- C3: every coordinate pair the Geolocation Resolver lets through lies in
the Singapore bounding box; a record it cannot place in bounds is rejected
with `GeocodeError`, so out-of-bounds coordinates are never passed on. -/
theorem resolveGeo_in_bounds (input : GeoInput) (c : ℤ × ℤ)
    (h : resolveGeo input = Except.ok c) :
    inSGBounds c.1 c.2 = true := by
  unfold resolveGeo at h
  split at h
  · split at h
    · cases h; assumption
    · exact resolveFromLandmarks_in_bounds input.locationText c h
  · exact resolveFromLandmarks_in_bounds input.locationText c h

/-- C3 witness: raw coordinates (1.3, 103.8) are accepted by the resolver
and indeed lie within the Singapore bounding box. -/
theorem resolveGeo_in_bounds_witness :
    inSGBounds (13000 : ℤ) (1038000 : ℤ) = true :=
  resolveGeo_in_bounds
    { locationText := "somewhere", rawCoords := some ((13000 : ℤ), (1038000 : ℤ)) }
    ((13000 : ℤ), (1038000 : ℤ)) rfl

/-! ### C4: the Normalizer (spec §4.3), modelled from the spec -/

/-- Drop leading space characters from a character list. -/
def dropLeadingSpaces : List Char → List Char
  | [] => []
  | c :: cs => if c = ' ' then dropLeadingSpaces cs else c :: cs

/-- Trim spaces from both ends of a character list (spec §4.3 "trims/validates
string lengths"). -/
def trimChars (cs : List Char) : List Char :=
  (dropLeadingSpaces (dropLeadingSpaces cs.reverse).reverse)

/-- Trimmed form of a string. -/
def trimString (s : String) : String :=
  String.mk (trimChars s.toList)

/-- Split a character list at dashes, for `YYYY-MM-DD` date texts. -/
def splitDash : List Char → List Char → List (List Char)
  | [], acc => [acc.reverse]
  | c :: rest, acc =>
      if c = '-' then acc.reverse :: splitDash rest []
      else splitDash rest (c :: acc)

/-- Numeric value of a digit list (most significant first). -/
def digitsVal (cs : List Char) : Nat :=
  cs.foldl (fun n c => n * 10 + (c.toNat - 48)) 0

/-- Whether a character list is a nonempty run of decimal digits. -/
def allDigits (cs : List Char) : Bool :=
  !cs.isEmpty && cs.all (fun c => c.isDigit)

/-- Whether a (year, month, day) triple is within the schema's ranges
(`part_009` "Date validation (not too old/future)"). -/
def dateTripleValid (d : Nat × Nat × Nat) : Bool :=
  (2000 ≤ d.1 && d.1 ≤ 2100) && (1 ≤ d.2.1 && d.2.1 ≤ 12) && (1 ≤ d.2.2 && d.2.2 ≤ 31)

/-- Modelled from the spec: parsing of a Singapore-formatted `YYYY-MM-DD`
date text into a (year, month, day) triple (spec §4.3 "parses
Singapore-formatted dates/times into a single timestamp representation";
`part_009` "Date validation (not too old/future)"). -/
def parseDate (s : String) : Option (Nat × Nat × Nat) :=
  match splitDash s.toList [] with
  | [y, m, d] =>
      if allDigits y && allDigits m && allDigits d then
        if dateTripleValid (digitsVal y, digitsVal m, digitsVal d)
        then some (digitsVal y, digitsVal m, digitsVal d) else none
      else none
  | _ => none

/-- Modelled from the spec: the fixed category set referenced by the
Normalizer (spec §3 "Category: fixed small set (concerts, festivals,
etc.)"; `part_010` lists 10 types). -/
def fixedCategories : List String :=
  ["Concerts", "Festivals", "DJ Events", "Kids Events", "Food & Drink",
   "Art & Exhibitions", "Sports", "Theatre", "Workshops", "Nightlife"]

/-- Modelled from the spec: mapping of a free-text category hint to the
fixed category set — "exact/fuzzy match; default 'Uncategorized' on no
match" (spec §4.3), the match taken on normalized names. -/
def mapCategory (hint : String) : String :=
  match fixedCategories.find? (fun c => decide (normalizeTitle c = normalizeTitle hint)) with
  | some c => c
  | none => "Uncategorized"

/-- Modelled from the spec: a raw candidate record entering the Normalizer
("ScrapeCandidate", spec §3: transient raw parsed record). -/
structure RawCandidate where
  title : String
  dateText : String
  timeText : String
  descriptionText : String
  locationText : String
  categoryHint : String
  deriving Repr, DecidableEq

/-- Modelled from the spec: `ValidationError` "enumerating the invalid
field(s)" (spec §4.3, §7). -/
structure ValidationError where
  fields : List String
  deriving Repr, DecidableEq

/-- Modelled from the spec: the canonical Event-shaped record produced by
the Normalizer (spec §4.3). -/
structure NormalizedEvent where
  title : String
  date : Nat × Nat × Nat
  timeText : String
  descriptionText : String
  locationText : String
  category : String
  deriving Repr, DecidableEq

/-- Title validity: 3–255 characters after trimming (`part_009` "Title
length validation (3-255 characters)"). -/
def titleValid (c : RawCandidate) : Bool :=
  3 ≤ (trimString c.title).length && (trimString c.title).length ≤ 255

/-- Date validity: the date text parses. -/
def dateValid (c : RawCandidate) : Bool :=
  (parseDate c.dateText).isSome

/-- The invalid fields of a candidate, in schema order. -/
def invalidFields (c : RawCandidate) : List String :=
  (if titleValid c then [] else ["title"]) ++ (if dateValid c then [] else ["date"])

/-- Whether a named field of the candidate is in fact invalid. -/
def fieldInvalid (c : RawCandidate) (f : String) : Bool :=
  if f = "title" then !(titleValid c)
  else if f = "date" then !(dateValid c)
  else false

/-- Schema validation of a canonical record: title length in range, date
triple in range, category drawn from the fixed set or "Uncategorized". -/
def schemaValid (ev : NormalizedEvent) : Bool :=
  (3 ≤ ev.title.length && ev.title.length ≤ 255)
    && dateTripleValid ev.date
    && (fixedCategories.contains ev.category || ev.category = "Uncategorized")

/-- Modelled from the spec: the Normalizer — "candidate record in,
canonical Event-shaped record out", failing "with a `ValidationError`
enumerating the invalid field(s) for records that cannot be normalized
(e.g., missing title or date)" (spec §4.3). -/
def normalizeRecord (c : RawCandidate) : Except ValidationError NormalizedEvent :=
  match parseDate c.dateText with
  | some d =>
      if titleValid c then
        Except.ok
          { title := trimString c.title
            date := d
            timeText := trimString c.timeText
            descriptionText := trimString c.descriptionText
            locationText := trimString c.locationText
            category := mapCategory c.categoryHint }
      else Except.error { fields := invalidFields c }
  | none => Except.error { fields := invalidFields c }

theorem parseDate_some_valid (s : String) (d : Nat × Nat × Nat)
    (h : parseDate s = some d) : dateTripleValid d = true := by
  unfold parseDate at h
  split at h
  · split at h
    · split at h
      · cases h
        assumption
      · cases h
    · cases h
  · cases h

theorem mapCategory_ok (hint : String) :
    (fixedCategories.contains (mapCategory hint) || mapCategory hint = "Uncategorized") = true := by
  unfold mapCategory
  cases hf : fixedCategories.find?
      (fun c => decide (normalizeTitle c = normalizeTitle hint)) with
  | none => simp
  | some cat =>
      have hmem : cat ∈ fixedCategories := List.mem_of_find?_eq_some hf
      simp [hmem]

theorem bool_eq_false_of_not_true {b : Bool} (h : ¬ b = true) : b = false := by
  cases hb : b
  · rfl
  · exact absurd hb h

theorem invalidFields_sound (c : RawCandidate) :
    ∀ f ∈ invalidFields c, fieldInvalid c f = true := by
  intro f hf
  unfold invalidFields at hf
  rcases List.mem_append.mp hf with h | h
  · by_cases ht : titleValid c = true
    · rw [if_pos ht] at h; cases h
    · rw [if_neg ht] at h
      have hft : f = "title" := by simpa using h
      subst hft
      simp [fieldInvalid, bool_eq_false_of_not_true ht]
  · by_cases hd : dateValid c = true
    · rw [if_pos hd] at h; cases h
    · rw [if_neg hd] at h
      have hfd : f = "date" := by simpa using h
      subst hfd
      simp [fieldInvalid, bool_eq_false_of_not_true hd]

theorem normalizeRecord_error_of_invalid (c : RawCandidate)
    (h : ¬(titleValid c = true ∧ dateValid c = true)) :
    normalizeRecord c = Except.error { fields := invalidFields c } := by
  unfold normalizeRecord
  cases hp : parseDate c.dateText with
  | none => rfl
  | some d =>
      have hd : dateValid c = true := by unfold dateValid; rw [hp]; rfl
      have ht : ¬ titleValid c = true := fun ht => h ⟨ht, hd⟩
      simp [ht]

theorem invalidFields_nonempty (c : RawCandidate)
    (h : ¬(titleValid c = true ∧ dateValid c = true)) :
    invalidFields c ≠ [] := by
  unfold invalidFields
  by_cases ht : titleValid c = true <;> by_cases hd : dateValid c = true <;>
    simp [ht, hd]
  exact h ⟨ht, hd⟩

/-- C4: a candidate with a valid title and date is normalized into a
canonical record that passes schema validation; and in general the
Normalizer has exactly two outcomes — a schema-valid record, or a
`ValidationError` whose nonempty field list names exactly fields that are
in fact invalid. -/
theorem normalizeRecord_dichotomy (c : RawCandidate) :
    ((titleValid c = true ∧ dateValid c = true) →
        ∃ ev, normalizeRecord c = Except.ok ev ∧ schemaValid ev = true)
      ∧ ((∃ ev, normalizeRecord c = Except.ok ev ∧ schemaValid ev = true)
          ∨ (∃ err, normalizeRecord c = Except.error err ∧ err.fields ≠ []
               ∧ ∀ f ∈ err.fields, fieldInvalid c f = true)) := by
  have main : (titleValid c = true ∧ dateValid c = true) →
      ∃ ev, normalizeRecord c = Except.ok ev ∧ schemaValid ev = true := by
    rintro ⟨ht, hd⟩
    unfold dateValid at hd
    cases hp : parseDate c.dateText with
    | none => rw [hp] at hd; cases hd
    | some d =>
        have hok : normalizeRecord c = Except.ok
            { title := trimString c.title
              date := d
              timeText := trimString c.timeText
              descriptionText := trimString c.descriptionText
              locationText := trimString c.locationText
              category := mapCategory c.categoryHint } := by
          unfold normalizeRecord
          rw [hp]
          dsimp only
          rw [if_pos ht]
        refine ⟨_, hok, ?_⟩
        unfold schemaValid
        simp only [Bool.and_eq_true]
        refine ⟨⟨?_, ?_⟩, ?_⟩
        · unfold titleValid at ht
          simpa using ht
        · exact parseDate_some_valid c.dateText d hp
        · have := mapCategory_ok c.categoryHint
          simpa using this
  refine ⟨main, ?_⟩
  by_cases hv : titleValid c = true ∧ dateValid c = true
  · exact Or.inl (main hv)
  · refine Or.inr ⟨{ fields := invalidFields c }, ?_, ?_, ?_⟩
    · exact normalizeRecord_error_of_invalid c hv
    · exact invalidFields_nonempty c hv
    · exact invalidFields_sound c

/-- C4 witness: a concrete candidate with a valid title and date is
normalized into a schema-valid record. -/
theorem normalizeRecord_dichotomy_witness :
    ∃ ev,
      normalizeRecord
        { title := "Jazz Night", dateText := "2024-08-01", timeText := "19:00",
          descriptionText := "An evening of jazz", locationText := "Marina Bay",
          categoryHint := "concerts" }
        = Except.ok ev ∧ schemaValid ev = true :=
  (normalizeRecord_dichotomy
    { title := "Jazz Night", dateText := "2024-08-01", timeText := "19:00",
      descriptionText := "An evening of jazz", locationText := "Marina Bay",
      categoryHint := "concerts" }).1 (by decide)

/-! ### C5: per-record failure handling of a pipeline run (spec §7, §8),
modelled from the spec -/

/-- Modelled from the spec: the admin-facing run statistics of one source's
pipeline run — persisted-record counter, `ValidationError` counter, and the
run's success flag (spec §7: "per-record errors are caught and logged with
a counter, allowing the run to proceed"). -/
structure RunStats where
  persisted : Nat
  validationErrors : Nat
  success : Bool
  deriving Repr, DecidableEq

/-- Whether a listing normalizes without a `ValidationError`. -/
def okRecord (c : RawCandidate) : Bool :=
  match normalizeRecord c with
  | Except.ok _ => true
  | Except.error _ => false

/-- Modelled from the spec: one source's pipeline run over its parsed
listings, in listing order.  A record that fails normalization is skipped
and counted; a record that normalizes is persisted; no record failure
aborts the run, which always completes successfully (spec §4.2 "fails
softly per-record", §7). -/
def runSource : List RawCandidate → RunStats × List NormalizedEvent
  | [] => ({ persisted := 0, validationErrors := 0, success := true }, [])
  | c :: rest =>
      match normalizeRecord c, runSource rest with
      | Except.ok ev, (stats, evs) =>
          ({ stats with persisted := stats.persisted + 1 }, ev :: evs)
      | Except.error _, (stats, evs) =>
          ({ stats with validationErrors := stats.validationErrors + 1 }, evs)

/-- The spec's concrete scenario source: three listings of which exactly
one is malformed (missing date) (spec §8). -/
def threeListings : List RawCandidate :=
  [{ title := "Jazz Night", dateText := "2024-08-01", timeText := "19:00",
     descriptionText := "Jazz", locationText := "Marina Bay", categoryHint := "concerts" },
   { title := "Food Fair", dateText := "", timeText := "10:00",
     descriptionText := "Food", locationText := "Orchard", categoryHint := "festivals" },
   { title := "Art Walk", dateText := "2024-08-02", timeText := "12:00",
     descriptionText := "Art", locationText := "Clarke Quay", categoryHint := "sports" }]

/-- C5: a single record's failure never aborts a pipeline run — every run
reports success, persists exactly the listings that normalize, and logs one
`ValidationError` per malformed listing; on the spec's three-listing
scenario (one listing missing its date) the run persists 2, logs 1, and
succeeds. -/
theorem runSource_soft_failure (listings : List RawCandidate) :
    (runSource listings).1.success = true
      ∧ (runSource listings).1.persisted = (listings.filter okRecord).length
      ∧ (runSource listings).1.validationErrors
          = (listings.filter (fun c => !(okRecord c))).length
      ∧ (runSource listings).2.length = (runSource listings).1.persisted
      ∧ (runSource threeListings).1
          = { persisted := 2, validationErrors := 1, success := true } := by
  have general : ∀ ls : List RawCandidate,
      (runSource ls).1.success = true
        ∧ (runSource ls).1.persisted = (ls.filter okRecord).length
        ∧ (runSource ls).1.validationErrors
            = (ls.filter (fun c => !(okRecord c))).length
        ∧ (runSource ls).2.length = (runSource ls).1.persisted := by
    intro ls
    induction ls with
    | nil => exact ⟨rfl, rfl, rfl, rfl⟩
    | cons c rest ih =>
        obtain ⟨ihs, ihp, ihe, ihl⟩ := ih
        cases hn : normalizeRecord c with
        | ok ev =>
            have hok : okRecord c = true := by unfold okRecord; rw [hn]
            refine ⟨?_, ?_, ?_, ?_⟩ <;>
              simp [runSource, hn, hok, List.filter_cons, ihs, ihp, ihe, ihl]
        | error err =>
            have hok : okRecord c = false := by unfold okRecord; rw [hn]
            refine ⟨?_, ?_, ?_, ?_⟩ <;>
              simp [runSource, hn, hok, List.filter_cons, ihs, ihp, ihe, ihl]
  obtain ⟨hs, hp, he, hl⟩ := general listings
  exact ⟨hs, hp, he, hl, rfl⟩

/-! ### C6: the approval policy of the Persistence Writer (spec §4.6),
modelled from the spec -/

/-- The source of an event record, as in the `Event` interface of the
frontend (`src/unnamed/part_002`): `'user_submission' | 'scraped' | 'admin'`. -/
inductive EventSource where
  | userSubmission : EventSource
  | scraped : EventSource
  | admin : EventSource
  deriving Repr, DecidableEq

/-- Modelled from the spec: the approval policy — "`is_approved = true` for
admin/scraped sources per existing policy, `false` for user submissions
pending moderation" (spec §4.6). -/
def approvalFor : EventSource → Bool
  | EventSource.admin => true
  | EventSource.scraped => true
  | EventSource.userSubmission => false

/-- A validated event record as handed to the Persistence Writer. -/
structure ValidatedRecord where
  title : String
  date : String
  source : EventSource
  deriving Repr, DecidableEq

/-- An event-store row, with the approval flag set by the writer. -/
structure EventRow where
  title : String
  date : String
  source : EventSource
  is_approved : Bool
  deriving Repr, DecidableEq

/-- Modelled from the spec: the Persistence Writer's construction of the
stored row, setting the approval flag from the record's source (spec §4.6). -/
def writeEvent (r : ValidatedRecord) : EventRow :=
  { title := r.title, date := r.date, source := r.source,
    is_approved := approvalFor r.source }

/-- C6: the written row's approval flag is determined by its source —
`true` exactly for admin and scraped sources, `false` exactly for user
submissions pending moderation. -/
theorem writeEvent_approval (r : ValidatedRecord) :
    ((writeEvent r).is_approved = true
        ↔ (r.source = EventSource.admin ∨ r.source = EventSource.scraped))
      ∧ ((writeEvent r).is_approved = false ↔ r.source = EventSource.userSubmission) := by
  cases hs : r.source <;> simp [writeEvent, approvalFor, hs]

/-! ### C7: one review per (user, event) pair (spec §3), modelled from the
spec and the unique constraint of `part_010` -/

/-- Modelled from the spec: a `Review` row — "user+event pair (unique
constraint), 1–5 rating, optional comment" (spec §3). -/
structure Review where
  userId : Nat
  eventId : Nat
  rating : Nat
  comment : Option String
  deriving Repr, DecidableEq

/-- The (user, event) pair of a review. -/
def reviewPair (r : Review) : Nat × Nat :=
  (r.userId, r.eventId)

/-- Modelled from the spec: review creation under the unique constraint of
`part_010` ("One review per user per event") — an insert for an already
reviewed (user, event) pair is rejected by the database and leaves the
store unchanged. -/
def addReview (s : List Review) (r : Review) : List Review :=
  if s.any (fun q => decide (reviewPair q = reviewPair r)) then s else r :: s

/-- Modelled from the spec: review edit ("mutated on edit", spec §3) — the
rating and comment of the (user, event) pair's review are replaced; the
pair itself never changes. -/
def editReview (s : List Review) (uid eid : Nat) (rating : Nat)
    (comment : Option String) : List Review :=
  s.map (fun q =>
    if reviewPair q = (uid, eid) then
      { q with rating := rating, comment := comment }
    else q)

/-- Modelled from the spec: review deletion ("deleted on request", spec §3). -/
def deleteReview (s : List Review) (uid eid : Nat) : List Review :=
  s.filter (fun q => !(decide (reviewPair q = (uid, eid))))

/-- An operation on the review store. -/
inductive ReviewOp where
  | add (r : Review) : ReviewOp
  | edit (uid eid rating : Nat) (comment : Option String) : ReviewOp
  | del (uid eid : Nat) : ReviewOp
  deriving Repr, DecidableEq

/-- Apply one review operation to the store. -/
def applyReviewOp (s : List Review) : ReviewOp → List Review
  | ReviewOp.add r => addReview s r
  | ReviewOp.edit uid eid rating comment => editReview s uid eid rating comment
  | ReviewOp.del uid eid => deleteReview s uid eid

/-- The review store reached from the empty store by a sequence of
operations. -/
def runReviewOps (ops : List ReviewOp) : List Review :=
  ops.foldl applyReviewOp []

/-- The one-review-per-(user, event) invariant: pairwise distinct pairs. -/
def uniquePairs (s : List Review) : Prop :=
  (s.map reviewPair).Nodup

theorem uniquePairs_addReview (s : List Review) (r : Review)
    (h : uniquePairs s) : uniquePairs (addReview s r) := by
  unfold addReview
  by_cases hc : s.any (fun q => decide (reviewPair q = reviewPair r)) = true
  · rw [if_pos hc]; exact h
  · rw [if_neg hc]
    unfold uniquePairs
    rw [List.map_cons]
    refine List.nodup_cons.mpr ⟨?_, h⟩
    intro hmem
    rcases List.mem_map.mp hmem with ⟨q, hq, hqr⟩
    exact hc (List.any_eq_true.mpr ⟨q, hq, decide_eq_true hqr⟩)

theorem editReview_map_pairs (s : List Review) (uid eid rating : Nat)
    (comment : Option String) :
    (editReview s uid eid rating comment).map reviewPair = s.map reviewPair := by
  unfold editReview
  rw [List.map_map]
  apply List.map_congr_left
  intro q _
  simp only [Function.comp_apply]
  split <;> rfl

theorem uniquePairs_editReview (s : List Review) (uid eid rating : Nat)
    (comment : Option String) (h : uniquePairs s) :
    uniquePairs (editReview s uid eid rating comment) := by
  unfold uniquePairs
  rw [editReview_map_pairs]
  exact h

theorem uniquePairs_deleteReview (s : List Review) (uid eid : Nat)
    (h : uniquePairs s) : uniquePairs (deleteReview s uid eid) := by
  unfold uniquePairs deleteReview
  exact h.sublist (List.Sublist.map reviewPair (List.filter_sublist s))

theorem uniquePairs_applyReviewOp (s : List Review) (op : ReviewOp)
    (h : uniquePairs s) : uniquePairs (applyReviewOp s op) := by
  cases op with
  | add r => exact uniquePairs_addReview s r h
  | edit uid eid rating comment => exact uniquePairs_editReview s uid eid rating comment h
  | del uid eid => exact uniquePairs_deleteReview s uid eid h

/-- C7: in every reachable state of the review store — any state produced
from the empty store by a sequence of creations, edits and deletions —
there is at most one review per (user, event) pair. -/
theorem runReviewOps_uniquePairs (ops : List ReviewOp) :
    uniquePairs (runReviewOps ops) := by
  have general : ∀ (ops : List ReviewOp) (s : List Review),
      uniquePairs s → uniquePairs (ops.foldl applyReviewOp s) := by
    intro ops
    induction ops with
    | nil => intro s h; exact h
    | cons op rest ih =>
        intro s h
        exact ih (applyReviewOp s op) (uniquePairs_applyReviewOp s op h)
  exact general ops [] (by simp [uniquePairs])

/-! ### C8 and C9: the events store getters
(`src/frontend/src/stores/auth.ts`, events-store segment, lines 259–291) -/

/-- A category as held by the events store (`Category` of
`src/unnamed/part_002`, reduced to the fields the getters read). -/
structure Category where
  id : Nat
  name : String
  deriving Repr, DecidableEq

/-- An event as held by the events store (`Event` of
`src/unnamed/part_002`, reduced to the fields the getters read).  `date` is
the timestamp `new Date(event.date).getTime()`; `average_rating` is
`undefined` or a rating. -/
structure StoreEvent where
  id : Nat
  title : String
  date : Int
  category_id : Nat
  category : Option Category
  average_rating : Option ℚ
  deriving Repr, DecidableEq

/-- The `eventsWithCategories` getter: each event joined with the first
category whose id matches its `category_id`
(`auth.ts` events-store lines 260–265). -/
def eventsWithCategories (events : List StoreEvent) (categories : List Category) :
    List StoreEvent :=
  events.map (fun e =>
    { e with category := categories.find? (fun c => decide (c.id = e.category_id)) })

/-- The ascending-date comparison used by the `upcomingEvents` sort
(`new Date(a.date).getTime() - new Date(b.date).getTime()`). -/
def dateLE (a b : StoreEvent) : Prop :=
  a.date ≤ b.date

instance : DecidableRel dateLE :=
  fun a b => inferInstanceAs (Decidable (a.date ≤ b.date))

instance : IsTotal StoreEvent dateLE :=
  ⟨fun a b => Int.le_total a.date b.date⟩

instance : IsTrans StoreEvent dateLE :=
  ⟨fun _ _ _ hab hbc => le_trans hab hbc⟩

/-- The `upcomingEvents` getter (`auth.ts` events-store lines 279–284):
the joined events whose date is not before the current time, sorted by
ascending date. -/
def upcomingEvents (events : List StoreEvent) (categories : List Category)
    (now : Int) : List StoreEvent :=
  List.insertionSort dateLE
    ((eventsWithCategories events categories).filter (fun e => decide (now ≤ e.date)))

/-- C8: `upcomingEvents` returns exactly the loaded (joined) events whose
date is at or after the current time, in ascending date order; an event
with a past date never appears. -/
theorem upcomingEvents_spec (events : List StoreEvent) (categories : List Category)
    (now : Int) :
    (∀ e, e ∈ upcomingEvents events categories now ↔
        (e ∈ eventsWithCategories events categories ∧ now ≤ e.date))
      ∧ List.Sorted dateLE (upcomingEvents events categories now) := by
  constructor
  · intro e
    unfold upcomingEvents
    rw [List.mem_insertionSort, List.mem_filter]
    simp
  · exact List.sorted_insertionSort dateLE _

/-- The `featuredEvents` filter predicate
(`event.average_rating && event.average_rating >= 4`): an `undefined` or
zero rating is falsy, otherwise the rating must be at least 4. -/
def featuredFilter (e : StoreEvent) : Bool :=
  match e.average_rating with
  | none => false
  | some r => !(decide (r = 0)) && decide (4 ≤ r)

/-- The descending-rating comparison used by the `featuredEvents` sort
(`(b.average_rating || 0) - (a.average_rating || 0)`). -/
def ratingGE (a b : StoreEvent) : Prop :=
  b.average_rating.getD 0 ≤ a.average_rating.getD 0

instance : DecidableRel ratingGE :=
  fun a b => inferInstanceAs (Decidable (b.average_rating.getD 0 ≤ a.average_rating.getD 0))

instance : IsTotal StoreEvent ratingGE :=
  ⟨fun a b => le_total (b.average_rating.getD 0) (a.average_rating.getD 0)⟩

instance : IsTrans StoreEvent ratingGE :=
  ⟨fun _ _ _ hab hbc => le_trans hbc hab⟩

/-- The `featuredEvents` getter (`auth.ts` events-store lines 286–291):
the joined events with a truthy rating of at least 4, sorted by descending
rating, first six taken. -/
def featuredEvents (events : List StoreEvent) (categories : List Category) :
    List StoreEvent :=
  (List.insertionSort ratingGE
    ((eventsWithCategories events categories).filter featuredFilter)).take 6

/-- C9: `featuredEvents` returns at most six events, each of which has a
defined `average_rating` of at least 4, ordered by descending
`average_rating`. -/
theorem featuredEvents_spec (events : List StoreEvent) (categories : List Category) :
    (featuredEvents events categories).length ≤ 6
      ∧ (∀ e ∈ featuredEvents events categories,
          ∃ r, e.average_rating = some r ∧ (4 : ℚ) ≤ r)
      ∧ List.Sorted ratingGE (featuredEvents events categories) := by
  refine ⟨?_, ?_, ?_⟩
  · unfold featuredEvents
    rw [List.length_take]
    exact min_le_left _ _
  · intro e he
    unfold featuredEvents at he
    have he' : e ∈ List.insertionSort ratingGE
        ((eventsWithCategories events categories).filter featuredFilter) :=
      List.mem_of_mem_take he
    rw [List.mem_insertionSort, List.mem_filter] at he'
    obtain ⟨_, hb⟩ := he'
    unfold featuredFilter at hb
    cases hr : e.average_rating with
    | none => rw [hr] at hb; cases hb
    | some r =>
        rw [hr] at hb
        simp only [Bool.and_eq_true, decide_eq_true_eq] at hb
        exact ⟨r, rfl, hb.2⟩
  · exact List.Pairwise.sublist (List.take_sublist 6 _)
      (List.sorted_insertionSort ratingGE _)

/-- A concrete events-store state for the C9 witness: one highly rated
event, one unrated event, one low-rated event. -/
def sampleStoreEvents : List StoreEvent :=
  [{ id := 1, title := "Jazz Night", date := 100, category_id := 1,
     category := none, average_rating := some 5 },
   { id := 2, title := "Food Fair", date := 200, category_id := 2,
     category := none, average_rating := none },
   { id := 3, title := "Art Walk", date := 300, category_id := 1,
     category := none, average_rating := some 3 }]

/-- C9 witness: on the concrete store state the getter keeps within six
events, and its member "Jazz Night" (joined with no category) carries a
defined rating of at least 4. -/
theorem featuredEvents_spec_witness :
    (featuredEvents sampleStoreEvents []).length ≤ 6
      ∧ ∃ r, ({ id := 1, title := "Jazz Night", date := 100, category_id := 1,
                category := none, average_rating := some 5 } : StoreEvent).average_rating
              = some r ∧ (4 : ℚ) ≤ r :=
  ⟨(featuredEvents_spec sampleStoreEvents []).1,
   (featuredEvents_spec sampleStoreEvents []).2.1
     { id := 1, title := "Jazz Night", date := 100, category_id := 1,
       category := none, average_rating := some 5 }
     (by decide)⟩

/-! ### C10: the auth store's `logout` action
(`src/frontend/src/stores/auth.ts` lines 73–88) -/

/-- The authenticated user object, reduced to the fields the auth store
stores (`User` of `src/unnamed/part_002`). -/
structure StoreUser where
  id : Nat
  email : String
  deriving Repr, DecidableEq

/-- The client authentication state of the auth store: the `accessToken`
and `user` refs plus the browser's `localStorage` key–value entries. -/
structure AuthState where
  accessToken : Option String
  user : Option StoreUser
  storage : List (String × String)
  deriving Repr, DecidableEq

/-- `localStorage.getItem`: the value of the first entry with the key. -/
def storageGet (st : List (String × String)) (k : String) : Option String :=
  match st with
  | [] => none
  | p :: rest => if p.1 = k then some p.2 else storageGet rest k

/-- `localStorage.removeItem`: drop every entry with the key. -/
def removeItem (st : List (String × String)) (k : String) : List (String × String) :=
  match st with
  | [] => []
  | p :: rest => if p.1 = k then removeItem rest k else p :: removeItem rest k

/-- The `logout` action (`auth.ts` lines 73–88): the server-side logout
call is attempted inside `try`/`catch` — its failure (`apiCallFails`) is
only logged — and the `finally` block always clears the client state:
`accessToken` and `user` become null and the three localStorage entries are
removed. -/
def logout (apiCallFails : Bool) (s : AuthState) : AuthState :=
  { accessToken := none
    user := none
    storage :=
      removeItem (removeItem (removeItem s.storage "access_token") "refresh_token") "user" }

theorem storageGet_removeItem_self (st : List (String × String)) (k : String) :
    storageGet (removeItem st k) k = none := by
  induction st with
  | nil => rfl
  | cons p rest ih =>
      unfold removeItem
      by_cases hp : p.1 = k
      · rw [if_pos hp]
        exact ih
      · rw [if_neg hp]
        unfold storageGet
        rw [if_neg hp]
        exact ih

theorem storageGet_removeItem_of_none (st : List (String × String)) (k k' : String)
    (h : storageGet st k = none) :
    storageGet (removeItem st k') k = none := by
  induction st with
  | nil => rfl
  | cons p rest ih =>
      unfold storageGet at h
      unfold removeItem
      by_cases hp : p.1 = k
      · rw [if_pos hp] at h
        cases h
      · rw [if_neg hp] at h
        by_cases hp' : p.1 = k'
        · rw [if_pos hp']
          exact ih h
        · rw [if_neg hp']
          unfold storageGet
          rw [if_neg hp]
          exact ih h

/-- C10: `logout` always clears the client authentication state —
`accessToken` and `user` are null and the `access_token`, `refresh_token`
and `user` localStorage entries are gone — and its result does not depend
on whether the server-side logout API call failed. -/
theorem logout_clears_state (apiCallFails : Bool) (s : AuthState) :
    (logout apiCallFails s).accessToken = none
      ∧ (logout apiCallFails s).user = none
      ∧ storageGet (logout apiCallFails s).storage "access_token" = none
      ∧ storageGet (logout apiCallFails s).storage "refresh_token" = none
      ∧ storageGet (logout apiCallFails s).storage "user" = none
      ∧ logout true s = logout false s := by
  refine ⟨rfl, rfl, ?_, ?_, ?_, rfl⟩
  · exact storageGet_removeItem_of_none _ _ _
      (storageGet_removeItem_of_none _ _ _
        (storageGet_removeItem_self s.storage "access_token"))
  · exact storageGet_removeItem_of_none _ _ _
      (storageGet_removeItem_self (removeItem s.storage "access_token") "refresh_token")
  · exact storageGet_removeItem_self _ "user"

end TodayAtSG
